import Mathlib

/-!
Verification of the schema-to-CLI mapping engine of `pydantic_argify`
(`src/pydantic_argify/parse.py`) against its natural-language specification.

The Python code is shallowly embedded: pydantic field metadata becomes
`FieldMeta`, declared Python type annotations become the inductive `PyType`,
and `build_parser_impl` becomes the executable `buildFields`/`build_parser_impl`
functions over an explicit `ParserSt` (the mutated `ArgumentParser`).
Python's mutable list state (`exist_truncate_args`, aliased to the
caller-supplied `exclude_truncated_args` list at line 207 of `parse.py`)
is threaded explicitly: `build_parser_impl` takes the list's value on entry
and returns its value on exit, which models CPython's in-place `append`
on the shared list object.

The fragment of the external `argparse` library the code is registered
against (option storage, token consumption, type coercion, the
`take_action` error discipline where only `ArgumentError` is converted to a
usage error) is modelled from CPython 3.11 `argparse.py`, which this
repository drives through the narrow interface described in the spec.
-/

namespace PydanticArgify

/-- Runtime values living in the argparse namespace and in pydantic defaults:
Python `None`, strings, ints, bools, lists and string-keyed dicts. -/
inductive Value where
  | vnone
  | vstr (s : String)
  | vint (n : Int)
  | vbool (b : Bool)
  | vlist (xs : List Value)
  | vdict (kvs : List (String × Value))

/-- Python truthiness (`bool(v)`), used by `_add_either_option`'s
`if kwargs["default"]:` test. -/
def truthy : Value → Bool
  | .vnone => false
  | .vstr s => s ≠ ""
  | .vint n => n ≠ 0
  | .vbool b => b
  | .vlist xs => !xs.isEmpty
  | .vdict kvs => !kvs.isEmpty

/-- Values stored in `json_schema_extra` / `model_config`: either a plain
string (the enable/disable prefixes) or a list of strings (the `cli` key). -/
inductive ExtraVal where
  | s (v : String)
  | sl (v : List String)
deriving DecidableEq

/-- Python type-coercion callables that can end up in `kwargs["type"]`:
`str`, `int`, `bool`, an enum class (calling it looks the token up among the
enum's values), or some other class used as a one-argument callable. -/
inductive Coerce where
  | toStr
  | toInt
  | toBool
  | toEnum (n : String) (vals : List String)
  | toOther (n : String)
deriving DecidableEq

/-- The argparse `action` registered for an option: the default store action,
`store_true`/`store_false`, `StoreKeywordParam` or `NestedFieldStoreAction`. -/
inductive ActionKind where
  | store
  | storeTrue
  | storeFalse
  | storeKeyword
  | nestedStore
deriving DecidableEq

/-- Arity of one option (`nargs`): absent means one token, `0` for the
boolean flag actions, `+`, `*`, or a fixed count (tuples). -/
inductive NArgs where
  | zero
  | plus
  | star
  | fixed (n : Nat)
deriving DecidableEq

/-- Per-field pydantic metadata other than the declared type: default value
(`none` models `PydanticUndefined`, so `is_required()` is `default.isNone`),
alias, description, title, and `json_schema_extra`. -/
structure FieldMeta where
  default : Option Value := none
  aliasName : Option String := none
  descr : Option String := none
  title : Option String := none
  extra : Option (List (String × ExtraVal)) := none

/-- Declared Python type of a field, as inspected through
`typing.get_origin` / `get_args` / `isinstance` / `issubclass` by
`build_parser_impl` and `_parse_shape_args`. `pymodel` carries the nested
model's class name and its `model_fields`. -/
inductive PyType where
  | pystr
  | pyint
  | pybool
  | pylist (t : PyType)
  | pyset (t : PyType)
  | pydict (k v : PyType)
  | pytuple (ts : List PyType)
  | pyenum (n : String) (vals : List String)
  | pyliteral (vals : List String)
  | pyunion (ts : List PyType)
  | pynone
  | pytype (t : PyType)
  | pyother (n : String)
  | pymodel (name : String) (fields : List (String × Option PyType × FieldMeta))

/-- One entry of `model_fields`: field name, annotation (`none` models an
absent annotation) and the remaining metadata. -/
abbrev FieldEntry := String × Option PyType × FieldMeta

/-- Result of `typing.get_origin` on an annotation. Plain classes (including
enum classes and BaseModel subclasses) have no origin. `ounion` covers both
`typing.Union` and `types.UnionType`, which the source tests with
`origin is Union or isinstance(field.annotation, types.UnionType)`;
`odict` covers both `dict` and `typing.Mapping` origins. -/
inductive Origin where
  | olist
  | oset
  | odict
  | otuple
  | oliteral
  | ounion
  | otype
deriving DecidableEq

/-- Embeds `typing.get_origin(annotation)`. -/
def get_origin : PyType → Option Origin
  | .pylist _ => some .olist
  | .pyset _ => some .oset
  | .pydict _ _ => some .odict
  | .pytuple _ => some .otuple
  | .pyliteral _ => some .oliteral
  | .pyunion _ => some .ounion
  | .pytype _ => some .otype
  | _ => none

/-- Embeds `issubclass(annotation, Enum)` on annotations for which the Python
call does not raise; generic aliases such as `Type[X]` (where `issubclass`
raises `TypeError`) are mapped to `false`, which is only ever consulted
behind the `origin is type` guard of the enum dispatch branch. -/
def isEnumSubclass : PyType → Bool
  | .pyenum _ _ => true
  | _ => false

/-- Using a class as the value of `kwargs["type"]` makes argparse call it on
the raw token: this maps an annotation to the coercion callable it denotes. -/
def annCoerce : PyType → Coerce
  | .pystr => .toStr
  | .pyint => .toInt
  | .pybool => .toBool
  | .pyenum n vals => .toEnum n vals
  | .pynone => .toOther "NoneType"
  | .pymodel n _ => .toOther n
  | .pylist _ => .toOther "list"
  | .pyset _ => .toOther "set"
  | .pydict _ _ => .toOther "dict"
  | .pytuple _ => .toOther "tuple"
  | .pyliteral _ => .toOther "Literal"
  | .pyunion _ => .toOther "Union"
  | .pytype _ => .toOther "type"
  | .pyother n => .toOther n

/-- Embeds `get_args(annotation)[0]` for list/set element types and tuples. -/
def firstArg : PyType → PyType
  | .pylist t => t
  | .pyset t => t
  | .pytuple (t :: _) => t
  | _ => .pystr

/-- Embeds `len(get_args(annotation))` for tuples. -/
def tupleLen : PyType → Nat
  | .pytuple ts => ts.length
  | _ => 0

/-- The slice of `kwargs` produced by `_parse_shape_args`: a key that the
Python dict does not contain is `none` here (`del kwargs["type"]` in the
Literal branch removes the key; `nargs`, `choices` and `action` are only
present when a branch sets them). -/
structure ShapeKwargs where
  typeF : Option Coerce
  nargs : Option NArgs
  choices : Option (List String)
  action : Option ActionKind
deriving DecidableEq

/-- Embeds `list(field.annotation)` for an enum class annotation. -/
def enumValues : PyType → List String
  | .pyenum _ vals => vals
  | _ => []

/-- Embeds `get_args(field.annotation)` for a `Literal` annotation. -/
def literalValues : PyType → List String
  | .pyliteral vals => vals
  | _ => []

/-- Embeds `_parse_shape_args` (parse.py lines 342-378). `required` is the
value of `field.is_required()`. The enum branch keeps the guard of the
source (`origin is type and issubclass(field.annotation, Enum)`): for a
plain enum class annotation `get_origin` is `None`, so the branch is never
taken and the annotation itself stays in `kwargs["type"]`. -/
def _parse_shape_args (ann : Option PyType) (required : Bool) : ShapeKwargs :=
  match ann with
  | none => ⟨some .toStr, none, none, none⟩
  | some a =>
    let origin := get_origin a
    if origin = some .olist ∨ origin = some .oset then
      ⟨some (annCoerce (firstArg a)), some (if required then .plus else .star), none, none⟩
    else if origin = some .odict then
      ⟨some .toStr, some (if required then .plus else .star), none, some .storeKeyword⟩
    else if origin = some .otuple then
      ⟨some (annCoerce (firstArg a)), some (.fixed (tupleLen a)), none, none⟩
    else if origin = some .otype ∧ isEnumSubclass a then
      ⟨some (annCoerce a), none, some (enumValues a), none⟩
    else if origin = some .oliteral then
      ⟨none, none, some (literalValues a), none⟩
    else if origin = some .ounion then
      ⟨some .toStr, none, none, none⟩
    else
      ⟨some (annCoerce a), none, none, none⟩

/-- Embeds `_get_extra` (parse.py lines 453-470): when the field carries a
`json_schema_extra` mapping, look the key up there (falling back to the
passed default and never consulting the model config); otherwise look it up
in the model config, falling back to the default. -/
def _get_extra (meta : FieldMeta) (config : List (String × ExtraVal)) (key : String)
    (dflt : Option ExtraVal) : Option ExtraVal :=
  match meta.extra with
  | none =>
    match List.lookup key config with
    | some v => some v
    | none => dflt
  | some ex =>
    match List.lookup key ex with
    | some v => some v
    | none => dflt

/-- Convenience projection used where the source expects the extra value to
be a plain string (the enable/disable prefixes). -/
def _get_extra_str (meta : FieldMeta) (config : List (String × ExtraVal)) (key : String)
    (dflt : String) : String :=
  match _get_extra meta config key (some (.s dflt)) with
  | some (.s v) => v
  | some (.sl l) => l.headD dflt
  | none => dflt

/-- Structural embedding of Python `s.replace(old, new)` for a
single-character `old` (the only form the source uses). Implemented on the
character list so that it reduces definitionally. -/
def charReplace (old : Char) (new : String) (s : String) : String :=
  String.mk (s.toList.foldr (fun c acc => if c = old then new.toList ++ acc else c :: acc) [])

/-- Whether a flag token starts with `-` (argparse's option-look test). -/
def startsDash (s : String) : Bool :=
  match s.toList with
  | '-' :: _ => true
  | _ => false

/-- Whether a flag token starts with `--` (argparse's long-option test). -/
def startsTwoDash (s : String) : Bool :=
  match s.toList with
  | '-' :: '-' :: _ => true
  | _ => false

/-- Structural embedding of Python `s.split(sep)` for a single-character
separator (the source splits on `"="` and `"."` only). -/
def splitCharGo (sep : Char) : List Char → List Char → List String
  | [], acc => [String.mk acc.reverse]
  | c :: rest, acc =>
    if c = sep then String.mk acc.reverse :: splitCharGo sep rest []
    else splitCharGo sep rest (c :: acc)

/-- Python `s.split(sep)` for one separator character. -/
def splitChar (sep : Char) (s : String) : List String :=
  splitCharGo sep s.toList []

/-- Digit-string accumulator for `int(s)`. -/
def digitsToNatGo : List Char → Nat → Option Nat
  | [], acc => some acc
  | c :: rest, acc =>
    if c.isDigit then digitsToNatGo rest (acc * 10 + (c.toNat - 48)) else none

/-- Structural embedding of Python `int(s)` on decimal tokens: an optional
leading minus sign followed by at least one digit; anything else raises
(`none`). -/
def pyToInt (s : String) : Option Int :=
  match s.toList with
  | [] => none
  | ['-'] => none
  | '-' :: c :: rest => (digitsToNatGo (c :: rest) 0).map (fun n => -(n : Int))
  | l => (digitsToNatGo l 0).map (fun n => (n : Int))

/-- Embeds `name.replace("_", naming_separator)`. -/
def sepRender (sep : String) (s : String) : String :=
  charReplace '_' sep s

/-- Embeds `get_cli_names` (parse.py lines 310-339): explicit `cli` extra
names win verbatim; otherwise the alias-derived flag (if any) followed by
the name-derived flag, both prefixed with `pfx` and rendered with the
naming separator. -/
def get_cli_names (nm : String) (meta : FieldMeta) (config : List (String × ExtraVal))
    (sep : String) (pfx : String) : List String :=
  match _get_extra meta config "cli" none with
  | some (.sl l) => l
  | some (.s v) => [v]
  | none =>
    (match meta.aliasName with
     | some a => [pfx ++ sepRender sep a]
     | none => []) ++ [pfx ++ sepRender sep nm]

/-- Embeds Python `s.strip("-")` on the character list: drop `-` from both
ends. -/
def stripDashes (cs : List Char) : List Char :=
  ((cs.dropWhile (· = '-')).reverse.dropWhile (· = '-')).reverse

/-- Embeds `f"-{args[0].strip('-')[0]}"` (parse.py line 296), the derived
one-letter short flag. On an all-dash flag the Python code would raise
`IndexError`; that case is unreachable for the nonempty flag names produced
by `get_cli_names` and is mapped to a bare `-`. -/
def truncToken (flag : String) : String :=
  match stripDashes flag.toList with
  | [] => "-"
  | c :: _ => String.mk ['-', c]

/-- Embeds argparse's dest derivation in `_get_optional_kwargs`: take the
first long option string (else the first option string), strip leading `-`
and replace the remaining `-` by `_`. -/
def deriveDest (args : List String) : String :=
  let long := args.filter startsTwoDash
  let cand := match long with
    | l :: _ => l
    | [] => args.headD ""
  charReplace '-' "_" (String.mk (cand.toList.dropWhile (· = '-')))

/-- One registered option (the argparse `Action` object created by
`add_argument`, together with the argument group and mutually exclusive
group it was registered on). `defaultV` is the action's `default` attribute
(`vnone` models argparse's implicit `None`). -/
structure ArgAction where
  flags : List String
  dest : String
  typeF : Option Coerce
  nargs : Option NArgs
  defaultV : Value := .vnone
  required : Bool := false
  helpText : Option String := none
  choices : Option (List String) := none
  kind : ActionKind := .store
  group : Option String := none
  mutexId : Option Nat := none

/-- The parser object being mutated: registered actions in registration
order, argument-group labels in creation order, and the `required` flags of
the mutually exclusive groups in creation order. -/
structure ParserSt where
  actions : List ArgAction := []
  groupsCreated : List String := []
  mutexRequired : List Bool := []

/-- Inner loop of `get_groupby_field_names`: add every field name of one
class to the result unless already present (`if name not in result`). -/
def addClassFields (clsName : String) : List FieldEntry → List (String × String) →
    List (String × String)
  | [], r => r
  | fe :: rest, r =>
    addClassFields clsName rest
      (if (List.lookup fe.1 r).isSome then r else r ++ [(fe.1, clsName)])

/-- Outer loop of `get_groupby_field_names` over `reversed(models)`. -/
def groupbyGo : List (String × List FieldEntry) → List (String × String) →
    List (String × String)
  | [], r => r
  | c :: rest, r => groupbyGo rest (addClassFields c.1 c.2 r)

/-- Embeds `get_groupby_field_names` (parse.py lines 54-77). The argument is
the `__mro__` chain truncated before `BaseModel` (most specific class
first), each class paired with its own `model_fields`; the walk over
`reversed(models)` attributes each field name to the first (most ancestral)
class that declares it. -/
def get_groupby_field_names (mro : List (String × List FieldEntry)) :
    List (String × String) :=
  groupbyGo mro.reverse []

/-- Embeds `field.description or field.title` with Python truthiness (an
empty description also falls through to the title). -/
def helpOf (meta : FieldMeta) : Option String :=
  match meta.descr with
  | some s => if s = "" then meta.title else some s
  | none => meta.title

/-- Per-invocation parameters of one `build_parser_impl` frame that stay
fixed across its field loop. -/
structure FrameParams where
  excludes : List String := []
  autoTrunc : Bool := true
  parseNested : Bool := true
  sep : String := "-"
  config : List (String × ExtraVal) := []
  groups : List (String × String) := []
  act : Option ActionKind := none

/-- Embeds `_add_both_options` (parse.py lines 381-414) together with the
`kwargs["dest"] = name` assignment of the caller: one required mutually
exclusive group holding a `store_true` action on the enable-prefixed flags
and a `store_false` action on the disable-prefixed flags, both with
`dest = name`. The required-boolean case never put a `default` key in
`kwargs`, so the actions get argparse's `store_true`/`store_false` class
defaults `False`/`True`. -/
def _add_both_options (P : FrameParams) (glabel : Option String) (mid : Nat)
    (nm : String) (meta : FieldMeta) (helpT : Option String) : List ArgAction :=
  let enArgs := get_cli_names nm meta P.config P.sep
    (_get_extra_str meta P.config "cli_enable_prefix" "--enable-")
  let disArgs := get_cli_names nm meta P.config P.sep
    (_get_extra_str meta P.config "cli_disable_prefix" "--disable-")
  [{ flags := enArgs, dest := nm, typeF := none, nargs := some .zero,
     defaultV := .vbool false, helpText := helpT, kind := .storeTrue,
     group := glabel, mutexId := some mid },
   { flags := disArgs, dest := nm, typeF := none, nargs := some .zero,
     defaultV := .vbool true, helpText := helpT, kind := .storeFalse,
     group := glabel, mutexId := some mid }]

/-- Embeds `_add_either_option` (parse.py lines 417-450) for a boolean field
whose default `dv` is present: a truthy default yields only the
disable-prefixed `store_false` option, a falsy one only the enable-prefixed
`store_true` option; the field's default is kept as the action's default. -/
def _add_either_option (P : FrameParams) (glabel : Option String)
    (nm : String) (meta : FieldMeta) (helpT : Option String) (dv : Value) : ArgAction :=
  if truthy dv then
    { flags := get_cli_names nm meta P.config P.sep
        (_get_extra_str meta P.config "cli_disable_prefix" ("--disable" ++ P.sep)),
      dest := nm, typeF := none, nargs := some .zero, defaultV := dv,
      helpText := helpT, kind := .storeFalse, group := glabel }
  else
    { flags := get_cli_names nm meta P.config P.sep
        (_get_extra_str meta P.config "cli_enable_prefix" ("--enable" ++ P.sep)),
      dest := nm, typeF := none, nargs := some .zero, defaultV := dv,
      helpText := helpT, kind := .storeTrue, group := glabel }

/-- Embeds the group bookkeeping of parse.py lines 247-256: resolve the
field's group label and create the argument group on the parser when this
frame has not created it yet (`cache_parsers` is per frame). Returns the
updated creation list of the parser, the updated frame cache and the
label. -/
def groupUpdate (P : FrameParams) (created : List String) (cache : List String)
    (nm : String) : List String × List String × Option String :=
  match List.lookup nm P.groups with
  | some g =>
    if cache.contains g then (created, cache, some g)
    else (created ++ [g], cache ++ [g], some g)
  | none => (created, cache, none)

/-- Embeds the per-field option synthesis of `build_parser_impl` for a
non-nested field (parse.py lines 238-305): shape kwargs, default, group,
help, then either the special boolean handling or the generic
`add_argument` call with auto-truncated short flag. Returns the updated
parser, the updated `exist_truncate_args` list and the updated frame group
cache. -/
def synthField (P : FrameParams) (st : ParserSt) (exist : List String)
    (cache : List String) (namePfx : Option String) (nm : String)
    (ann : Option PyType) (meta : FieldMeta) : ParserSt × List String × List String :=
  let required := meta.default.isNone
  let shape := _parse_shape_args ann required
  let effAct := match shape.action with
    | some k => some k
    | none => P.act
  let gu := groupUpdate P st.groupsCreated cache nm
  let glabel := gu.2.2
  let helpT := helpOf meta
  match effAct, ann with
  | none, some .pybool =>
    match meta.default with
    | none =>
      ({ actions := st.actions ++
           _add_both_options P glabel st.mutexRequired.length nm meta helpT,
         groupsCreated := gu.1,
         mutexRequired := st.mutexRequired ++ [true] }, exist, gu.2.1)
    | some dv =>
      ({ actions := st.actions ++ [_add_either_option P glabel nm meta helpT dv],
         groupsCreated := gu.1,
         mutexRequired := st.mutexRequired }, exist, gu.2.1)
  | _, _ =>
    let pfxStr := "--" ++ (match namePfx with
      | some p => p
      | none => "")
    let args0 := get_cli_names nm meta P.config P.sep pfxStr
    let t := truncToken (args0.headD "")
    let addTrunc := P.autoTrunc && !(exist.contains t)
    let args1 := if addTrunc then args0 ++ [t] else args0
    let exist' := if addTrunc then exist ++ [t] else exist
    let a : ArgAction :=
      { flags := args1, dest := deriveDest args1, typeF := shape.typeF,
        nargs := shape.nargs, defaultV := (meta.default).getD .vnone,
        required := required, helpText := helpT, choices := shape.choices,
        kind := effAct.getD .store, group := glabel }
    ({ actions := st.actions ++ [a], groupsCreated := gu.1,
       mutexRequired := st.mutexRequired }, exist', gu.2.1)

/-- Embeds the field loop of `build_parser_impl` (parse.py lines 209-307),
including the nested-model branch (lines 214-236). `fuel` bounds the
total number of field entries processed across the recursion into nested
models (the Python recursion is bounded by the schema tree itself); it is
consumed one unit per processed entry so that the function is structurally
recursive and reduces definitionally. The branch is a faithful translation of the source,
including the two prefix defects: `".".join([name_prefix, name]) + "."`
duplicates the dot when `name_prefix` already ends in one, and
`orig_name_prefix = None` resets the prefix to `None` (not to its previous
value) for the fields that follow a nested-model field; the recursive call
omits `auto_truncate` (so it reverts to its default `True`), forces
`groupby_inherit=True`, passes the nested model's own config (modelled here
as the declaration-order grouping of the nested model's own fields and an
empty `model_config`) and sets `action=NestedFieldStoreAction`. -/
def buildFields : Nat → FrameParams → ParserSt → List String → List String →
    Option String → List FieldEntry → ParserSt × List String
  | _, _, st, exist, _, _, [] => (st, exist)
  | 0, _, st, exist, _, _, _ :: _ => (st, exist)
  | fuel + 1, P, st, exist, cache, namePfx, (nm, ann, meta) :: rest =>
    if nm ∈ P.excludes then
      buildFields fuel P st exist cache namePfx rest
    else
      match P.parseNested, ann with
      | true, some (.pymodel mname mfields) =>
        let np : Option String :=
          match namePfx with
          | some p => some (p ++ "." ++ nm ++ ".")
          | none => some (nm ++ ".")
        let P' : FrameParams :=
          { excludes := P.excludes, autoTrunc := true,
            parseNested := P.parseNested, sep := P.sep, config := [],
            groups := get_groupby_field_names [(mname, mfields)],
            act := some .nestedStore }
        let r := buildFields fuel P' st exist [] np mfields
        buildFields fuel P r.1 r.2 cache none rest
      | _, _ =>
        let r := synthField P st exist cache namePfx nm ann meta
        buildFields fuel P r.1 r.2.1 r.2.2 namePfx rest

/-- A model class as `build_parser` receives it: its name, its `__mro__`
chain truncated before `BaseModel` (most specific class first, each class
with its own `model_fields`; the concrete class's `model_fields`, i.e. the
full field list, is the head's field list), and its `model_config`. -/
structure ModelCls where
  name : String
  mro : List (String × List FieldEntry)
  config : List (String × ExtraVal) := []

/-- The concrete model's own enumerated fields (`get_model_field(model)`). -/
def ModelCls.fields (m : ModelCls) : List FieldEntry :=
  (m.mro.headD (m.name, [])).2

/-- Embeds `build_parser_impl` (parse.py lines 154-307). `exist` is the
value of the caller-supplied `exclude_truncated_args` list on entry (line
207 aliases it as `exist_truncate_args` without copying); the returned list
is its value after the call, mutated in place by the `append` on line 299 -
so threading the returned list into a subsequent call models CPython's
shared defaulted list object. -/
def build_parser_impl (fuel : Nat) (st : ParserSt) (m : ModelCls)
    (excludes : List String := []) (auto_truncate : Bool := true)
    (groupby_inherit : Bool := true) (exist : List String := ["-h"])
    (parse_nested_model : Bool := true) (namePfx : Option String := none)
    (sep : String := "-") (act : Option ActionKind := none) :
    ParserSt × List String :=
  let P : FrameParams :=
    { excludes := excludes, autoTrunc := auto_truncate,
      parseNested := parse_nested_model, sep := sep, config := m.config,
      groups := if groupby_inherit then get_groupby_field_names m.mro else [],
      act := act }
  buildFields fuel P st exist [] namePfx m.fields

/-! ### Parse-time model

The fragment of CPython 3.11 `argparse` that this repository's registered
options exercise: default initialisation of the namespace, option lookup,
token consumption per `nargs`, `type` conversion (where `ArgumentTypeError`,
`TypeError` and `ValueError` become an `ArgumentError`, hence a usage-error
exit), the `choices` check, and `take_action` - where an exception raised by
the action's `__call__` is NOT caught (only `ArgumentError` raised during
`_parse_known_args` is converted by `parse_known_args` into `self.error`),
so it propagates to the caller unhandled. Abbreviated-prefix matching,
positionals and mutually-exclusive conflict detection are outside the
fragment the claims exercise. -/

/-- An argparse `Namespace`: attribute name to value, in `setattr` order. -/
abbrev PyNamespace := List (String × Value)

/-- Embeds `getattr(namespace, k, None)` returning `none` when absent. -/
def nsGet (ns : PyNamespace) (k : String) : Option Value :=
  List.lookup k ns

/-- Embeds `setattr(namespace, k, v)` (replace in place, else append). -/
def nsSet : PyNamespace → String → Value → PyNamespace
  | [], k, v => [(k, v)]
  | (k', v') :: rest, k, v =>
    if k' = k then (k, v) :: rest else (k', v') :: nsSet rest k v

/-- Assoc update for Python dict assignment `d[k] = v`. -/
def dictSet : List (String × Value) → String → Value → List (String × Value)
  | [], k, v => [(k, v)]
  | (k', v') :: rest, k, v =>
    if k' = k then (k, v) :: rest else (k', v') :: dictSet rest k v

/-- Embeds calling the registered `type` callable on one raw token
(argparse `_get_value`). An `Except.error` models the callable raising,
which argparse converts into a usage error. An enum instance is modelled by
its value string. Classes outside the modelled set act as identity on the
token (none of the claims exercises them). -/
def coerceStr : Coerce → String → Except String Value
  | .toStr, s => .ok (.vstr s)
  | .toInt, s =>
    match pyToInt s with
    | some n => .ok (.vint n)
    | none => .error ("invalid int value: " ++ s)
  | .toBool, s => .ok (.vbool (s != ""))
  | .toEnum n vals, s =>
    if vals.contains s then .ok (.vstr s)
    else .error (s ++ " is not a valid " ++ n)
  | .toOther _, s => .ok (.vstr s)

/-- Embeds `NestedFieldStoreAction`'s `self.type(values)`: the registered
callable applied to the value argparse has already converted. -/
def coerceVal : Option Coerce → Value → Except String Value
  | none, _ => .error "TypeError: NoneType object is not callable"
  | some .toStr, .vstr s => .ok (.vstr s)
  | some .toStr, .vint n => .ok (.vstr (toString n))
  | some .toStr, .vnone => .ok (.vstr "None")
  | some .toStr, .vbool b => .ok (.vstr (if b then "True" else "False"))
  | some .toInt, .vint n => .ok (.vint n)
  | some .toInt, .vbool b => .ok (.vint (if b then 1 else 0))
  | some .toInt, .vstr s =>
    match pyToInt s with
    | some n => .ok (.vint n)
    | none => .error ("invalid int value: " ++ s)
  | some .toBool, v => .ok (.vbool (truthy v))
  | some (.toEnum n vals), .vstr s =>
    if vals.contains s then .ok (.vstr s)
    else .error (s ++ " is not a valid " ++ n)
  | _, _ => .error "unsupported conversion"

/-- Outcome of `parser.parse_args(tokens)`: a parsed namespace, a usage
error (`parser.error`, i.e. `SystemExit` with a usage message), or an
exception that propagates out of `parse_args` unhandled. -/
inductive ParseResult where
  | ok (ns : PyNamespace)
  | usageErr (msg : String)
  | exc (msg : String)

/-- Whether a parse outcome is a usage-error exit. -/
def ParseResult.isUsage : ParseResult → Bool
  | .usageErr _ => true
  | _ => false

/-- Whether a parse outcome is an exception escaping `parse_args`. -/
def ParseResult.isExc : ParseResult → Bool
  | .exc _ => true
  | _ => false

/-- Embeds the namespace-default loop of `parse_known_args`: the first
action registered for a dest seeds its default. -/
def initNamespace (acts : List ArgAction) : PyNamespace :=
  acts.foldl
    (fun ns a => if (nsGet ns a.dest).isSome then ns else nsSet ns a.dest a.defaultV)
    []

/-- Embeds `StoreKeywordParam.__call__` (parse.py lines 80-103) on the list
of converted tokens: each token is split on `=`; fewer than two parts
raises `ValueError` (modelled as `Except.error`, an uncaught exception);
otherwise the key is the first part and the value the remaining parts
re-joined with `=` - i.e. a split on the first `=` only. -/
def storeKeywordFold (dict : List (String × Value)) :
    List Value → Except String (List (String × Value))
  | [] => .ok dict
  | .vstr s :: rest =>
    let parts := splitChar '=' s
    if parts.length < 2 then
      .error "Wrong format of keyword parameters. Expected: key=value"
    else
      storeKeywordFold (dictSet dict (parts.headD "") (.vstr (String.intercalate "=" parts.tail))) rest
  | _ :: _ => .error "unsupported keyword token"

/-- Embeds `take_action`'s call of the action object. `payload` is the
already-converted value (a `vlist` for `+`/`*`/fixed arities). An
`Except.error` is an exception escaping the action's `__call__`. -/
def applyAction (a : ArgAction) (ns : PyNamespace) (payload : Value) :
    Except String PyNamespace :=
  match a.kind with
  | .store => .ok (nsSet ns a.dest payload)
  | .storeTrue => .ok (nsSet ns a.dest (.vbool true))
  | .storeFalse => .ok (nsSet ns a.dest (.vbool false))
  | .storeKeyword =>
    let dict0 := match nsGet ns a.dest with
      | some (.vdict kvs) => kvs
      | _ => []
    let vals := match payload with
      | .vlist vs => vs
      | v => [v]
    match storeKeywordFold dict0 vals with
    | .ok d => .ok (nsSet ns a.dest (.vdict d))
    | .error e => .error e
  | .nestedStore =>
    match splitChar '.' a.dest with
    | [] => .error "Unknown dest format"
    | root :: tail =>
      let dict0 := match nsGet ns root with
        | some (.vdict kvs) => kvs
        | _ => []
      match coerceVal a.typeF payload with
      | .error e => .error e
      | .ok v =>
        .ok (nsSet ns root (.vdict (tail.foldl (fun d fn => dictSet d fn v) dict0)))

/-- Converts the consumed raw tokens of one option occurrence and checks
`choices`; `Except.error` here models an `ArgumentError`, i.e. a usage
error. -/
def convertTokens (a : ArgAction) : List String → Except String (List Value)
  | [] => .ok []
  | s :: rest =>
    let conv : Except String Value :=
      match a.typeF with
      | none => .ok (.vstr s)
      | some c => coerceStr c s
    match conv with
    | .error e => .error e
    | .ok v =>
      let okChoice := match a.choices, v with
        | some ch, .vstr s' => ch.contains s'
        | _, _ => true
      if okChoice then
        match convertTokens a rest with
        | .ok vs => .ok (v :: vs)
        | .error e => .error e
      else .error ("invalid choice: " ++ s)

/-- Embeds the optional-consumption loop of `_parse_known_args` over the
registered actions: find the action owning the token, consume the number of
following tokens its `nargs` demands (an option-looking token is never
consumed as a value), convert and check them, run the action, and finally
enforce `required`. -/
def parseTokens (acts : List (Nat × ArgAction)) :
    Nat → PyNamespace → List Nat → List String → ParseResult
  | _, ns, seen, [] =>
    if acts.all (fun ia => !ia.2.required || seen.contains ia.1) then .ok ns
    else .usageErr "the following arguments are required"
  | 0, _, _, _ :: _ => .usageErr "internal fuel exhausted"
  | fuel + 1, ns, seen, tok :: rest =>
    match acts.find? (fun ia => ia.2.flags.contains tok) with
    | none => .usageErr ("unrecognized arguments: " ++ tok)
    | some (i, a) =>
      let nonOpt : String → Bool := fun s => !startsDash s
      let arity := match a.nargs with
        | none => some 1
        | some .zero => some 0
        | some (.fixed n) => some n
        | some .plus => none
        | some .star => none
      let raw := match arity with
        | some n => rest.take n
        | none => rest.takeWhile nonOpt
      let enough := match arity with
        | some n => raw.length = n && raw.all nonOpt
        | none => true
      let needsOne := match a.nargs with
        | some .plus => raw.isEmpty
        | _ => false
      if !enough then .usageErr ("argument " ++ tok ++ ": expected argument(s)")
      else if needsOne then .usageErr ("argument " ++ tok ++ ": expected at least one argument")
      else
        match convertTokens a raw with
        | .error e => .usageErr ("argument " ++ tok ++ ": " ++ e)
        | .ok vs =>
          let payload := match a.nargs with
            | none => (vs.headD .vnone)
            | some .zero => .vnone
            | _ => .vlist vs
          match applyAction a ns payload with
          | .error e => .exc e
          | .ok ns' =>
            parseTokens acts fuel ns' (seen ++ [i]) (rest.drop raw.length)

/-- Embeds `parser.parse_args(tokens)` for a parser built by
`build_parser_impl`. -/
def parse_args (st : ParserSt) (tokens : List String) : ParseResult :=
  parseTokens st.actions.enum (tokens.length + 1) (initNamespace st.actions) [] tokens

/-! ### Validation model

The schema/validation collaborator (`Config.model_validate(vars(args))`,
pydantic) consumed through the interface of spec section 6:
`construct(schema_type, mapping) -> instance | ValidationError`. Extra keys
(such as the flat dotted dests left at `None`) are ignored; a missing key
falls back to the field default; only the lax coercions the claims exercise
are included. -/

/-- Validates one value against a declared type. `fuel` bounds the depth of
nested models and unions and is consumed one unit per step so that the
function is structurally recursive; the first member of a union that
validates wins; a field mapping is validated against `model_fields`,
ignoring extra keys and applying defaults for missing ones. -/
def validateValue : Nat → Option PyType → Value → Except String Value
  | _, none, v => .ok v
  | _, some .pystr, .vstr s => .ok (.vstr s)
  | _, some .pyint, .vint n => .ok (.vint n)
  | _, some .pyint, .vstr s =>
    match pyToInt s with
    | some n => .ok (.vint n)
    | none => .error "int parsing error"
  | _, some .pybool, .vbool b => .ok (.vbool b)
  | _, some .pybool, .vstr s =>
    if s ∈ ["true", "True", "1"] then .ok (.vbool true)
    else if s ∈ ["false", "False", "0"] then .ok (.vbool false)
    else .error "bool parsing error"
  | 0, some (.pymodel _ _), _ => .error "validation recursion limit"
  | fuel + 1, some (.pymodel _ mfields), .vdict kvs =>
    let step : FieldEntry → Except String (List (String × Value)) →
        Except String (List (String × Value)) := fun fe acc =>
      match acc with
      | .error e => .error e
      | .ok out =>
        match List.lookup fe.1 kvs with
        | some v =>
          match validateValue fuel fe.2.1 v with
          | .ok w => .ok ((fe.1, w) :: out)
          | .error e => .error e
        | none =>
          match fe.2.2.default with
          | some d => .ok ((fe.1, d) :: out)
          | none => .error ("Field required: " ++ fe.1)
    match mfields.foldr step (.ok []) with
    | .ok out => .ok (.vdict out)
    | .error e => .error e
  | _, some .pynone, .vnone => .ok .vnone
  | 0, some (.pyunion _), _ => .error "validation recursion limit"
  | fuel + 1, some (.pyunion ts), v =>
    ts.foldr
      (fun t acc =>
        match validateValue fuel (some t) v with
        | .ok w => .ok w
        | .error _ => acc)
      (.error "no union member matched")
  | _, some _, v => .ok v

/-- Embeds `Model.model_validate(vars(args))` for a whole model class. -/
def model_validate (fuel : Nat) (m : ModelCls) (d : List (String × Value)) :
    Except String Value :=
  match validateValue (fuel + 1) (some (.pymodel m.name m.fields)) (.vdict d) with
  | .ok v => .ok v
  | .error e => .error e


/-! ### Concrete schemas used by the claims -/

/-- Fields of `ChildConfig {name: str, age: int = 10}`. -/
def childConfigFields : List FieldEntry :=
  [("name", some .pystr, {}), ("age", some .pyint, { default := some (.vint 10) })]

/-- The schema `Config {name: str, child: ChildConfig}` of the nested
round-trip claim. -/
def nestedConfig : ModelCls :=
  { name := "Config",
    mro := [("Config", [("name", some .pystr, {}),
                        ("child", some (.pymodel "ChildConfig" childConfigFields), {})])] }

/-- The parser built from `nestedConfig` with all defaults. -/
def builtNestedConfig : ParserSt := (build_parser_impl 8 {} nestedConfig).1

/-- Fields of `ChildConfig2 {name: str, age: int = 10, is_active: bool}`
(the nested model of the repository's own `test_nested_model`). -/
def child2ConfigFields : List FieldEntry :=
  [("name", some .pystr, {}), ("age", some .pyint, { default := some (.vint 10) }),
   ("is_active", some .pybool, {})]

/-- The schema `Config {name: str, child2: ChildConfig2 | None = None}`:
the only non-null union alternative is a nested model. -/
def optionalNestedConfig : ModelCls :=
  { name := "Config",
    mro := [("Config",
      [("name", some .pystr, {}),
       ("child2", some (.pyunion [.pymodel "ChildConfig2" child2ConfigFields, .pynone]),
        { default := some .vnone })])] }

/-- The parser built from `optionalNestedConfig` with all defaults. -/
def builtOptionalNested : ParserSt := (build_parser_impl 8 {} optionalNestedConfig).1

/-- The depth-two schema `Config {child: Child {grand: Grand {g: str}, leaf: str}}`:
`leaf` is enumerated after the deeper nested-record sibling `grand`. -/
def deepConfig : ModelCls :=
  { name := "Config",
    mro := [("Config",
      [("child", some (.pymodel "Child"
        [("grand", some (.pymodel "Grand" [("g", some .pystr, {})]), {}),
         ("leaf", some .pystr, {})]), {})])] }

/-- One-field schema `Config {param: str}`. -/
def paramOnlyConfig : ModelCls :=
  { name := "Config", mro := [("Config", [("param", some .pystr, {})])] }

/-- Schema with an aliased field: `Config {param: str}` with alias
`zebra`. -/
def aliasConfig : ModelCls :=
  { name := "Config",
    mro := [("Config", [("param", some .pystr, { aliasName := some "zebra" })])] }

/-- Schema `Config {alpha: str, aardvark: str}` in that declaration order. -/
def alphaAardvarkConfig : ModelCls :=
  { name := "Config",
    mro := [("Config", [("alpha", some .pystr, {}), ("aardvark", some .pystr, {})])] }

/-- Schema `Config {hello: str}`: its derived short flag collides with the
seeded help token. -/
def helloConfig : ModelCls :=
  { name := "Config", mro := [("Config", [("hello", some .pystr, {})])] }

/-- Schema `Config {param: TestEnum}` with `TestEnum` values
one/two/three (the repository's own `test_enum` fixture). -/
def enumConfig : ModelCls :=
  { name := "Config",
    mro := [("Config", [("param", some (.pyenum "TestEnum" ["one", "two", "three"]), {})])] }

/-- Schema `Config {param: Dict[str, int]}` (the repository's own
`test_dict` fixture). -/
def dictConfig : ModelCls :=
  { name := "Config", mro := [("Config", [("param", some (.pydict .pystr .pyint), {})])] }

/-- The parser built from `dictConfig` with all defaults. -/
def builtDictConfig : ParserSt := (build_parser_impl 8 {} dictConfig).1

/-- Schema `Config {child: Child {flag: bool}}`: a boolean inside a nested
record. -/
def nestedBoolConfig : ModelCls :=
  { name := "Config",
    mro := [("Config", [("child", some (.pymodel "Child" [("flag", some .pybool, {})]), {})])] }

/-- The parser built from `nestedBoolConfig` with all defaults. -/
def builtNestedBool : ParserSt := (build_parser_impl 8 {} nestedBoolConfig).1

/-- Composition the spec calls "parsing followed by schema reconstruction":
`Model.model_validate(vars(parser.parse_args(tokens)))`. -/
def parseAndValidate (fuel : Nat) (m : ModelCls) (st : ParserSt)
    (tokens : List String) : Except String Value :=
  match parse_args st tokens with
  | .ok ns => model_validate fuel m ns
  | .usageErr msg => .error ("usage error: " ++ msg)
  | .exc msg => .error ("uncaught exception: " ++ msg)

/-! ### Claim theorems -/

/-- C2: building a parser for `Config {name: str, child: Child {name: str,
age: int = 10}}` and parsing `["--name","x","--child.name","y",
"--child.age","5"]` followed by schema reconstruction yields
`{name: "x", child: {name: "y", age: 5}}`; with `--child.age 5` omitted the
reconstruction falls back to `child.age = 10`. -/
theorem nested_roundtrip_C2 :
    parseAndValidate 8 nestedConfig builtNestedConfig
        ["--name", "x", "--child.name", "y", "--child.age", "5"] =
      .ok (.vdict [("name", .vstr "x"),
                   ("child", .vdict [("name", .vstr "y"), ("age", .vint 5)])]) ∧
    parseAndValidate 8 nestedConfig builtNestedConfig
        ["--name", "x", "--child.name", "y"] =
      .ok (.vdict [("name", .vstr "x"),
                   ("child", .vdict [("name", .vstr "y"), ("age", .vint 10)])]) :=
  ⟨rfl, rfl⟩

/-- C1: evaluating `build_parser` on `Config {name: str,
child2: ChildConfig2 | None = None}` shows what the code actually does with
a union whose only non-null alternative is a nested model: the
`isinstance(field.annotation, type)` guard of the nested branch fails for
the union annotation, so the field falls through to `_parse_shape_args`'s
union case and is registered as a single raw-string scalar option
`--child2` - no recursion, no dotted per-leaf options, no required-ness
forcing - contradicting the claim (and the repository's own
`test_nested_model`, which expects `--child2.name`, `--child2.age` and
`--child2.is-active` with required-ness forced false). -/
theorem optional_nested_collapses_to_scalar_C1 :
    builtOptionalNested.actions.map (fun a => a.flags) =
      [["--name", "-n"], ["--child2", "-c"]] ∧
    builtOptionalNested.actions.map (fun a => a.typeF) =
      [some .toStr, some .toStr] ∧
    builtOptionalNested.actions.map (fun a => a.kind) = [.store, .store] ∧
    builtOptionalNested.actions.map (fun a => a.required) = [true, false] ∧
    (["--child2.name", "--child2.age", "--child2.is-active"].all (fun f =>
      builtOptionalNested.actions.all (fun a => !a.flags.contains f))) = true :=
  ⟨rfl, rfl, rfl, rfl, rfl⟩

/-- C8: evaluating `build_parser` on
`Config {child: Child {grand: Grand {g: str}, leaf: str}}` shows the two
prefix defects of the nested branch: the flag for the depth-two leaf `g` is
`--child..grand.g` (the `".".join([name_prefix, name]) + "."` extension
duplicates the dot), and the leaf `leaf`, enumerated after the deeper
nested-record sibling `grand`, loses its prefix entirely
(`orig_name_prefix = None` resets the prefix instead of restoring it),
yielding `--leaf` instead of the claimed `--child.leaf`. -/
theorem deep_nested_prefix_defects_C8 :
    (build_parser_impl 8 {} deepConfig).1.actions.map (fun a => a.flags) =
      [["--child..grand.g", "-c"], ["--leaf", "-l"]] ∧
    ((build_parser_impl 8 {} deepConfig).1.actions.all (fun a =>
      !a.flags.contains "--child.grand.g" && !a.flags.contains "--child.leaf")) = true :=
  ⟨rfl, rfl⟩

/-- First call of `build_parser` on `Config {param: str}` with every keyword
argument left at its default (so `exclude_truncated_args` is the module's
shared default list with value `["-h"]`). -/
def c4FirstCall : ParserSt × List String := build_parser_impl 8 {} paramOnlyConfig

/-- Second call with every keyword argument left at its default: CPython
evaluated the default `exclude_truncated_args = ["-h"]` list once at
function definition time, the first call's line 299 `append` mutated that
shared object in place, so the second call receives the list value the
first call left behind. -/
def c4SecondCallShared : ParserSt × List String :=
  build_parser_impl 8 {} paramOnlyConfig [] true true c4FirstCall.2

/-- Second call passing a fresh `["-h"]` list explicitly. -/
def c4SecondCallFresh : ParserSt × List String :=
  build_parser_impl 8 {} paramOnlyConfig [] true true ["-h"]

/-- C4 counterexample: with the same (defaulted) keyword arguments, the
second `build_parser` call on `Config {param: str}` produces a different
flag set than the first - the shared mutated default list still contains
the `-p` claimed by the first call, so the second call omits the short
flag. -/
theorem second_defaulted_call_flags_differ_C4 :
    ¬ (c4SecondCallShared.1.actions.map (fun a => a.flags) =
       c4FirstCall.1.actions.map (fun a => a.flags)) := by decide

/-- C4 amended: two `build_parser` calls with the same schema agree when the
caller passes a fresh `exclude_truncated_args` list each time; with the
defaulted argument, the short flags claimed during the first call persist
in the shared default list (`["-h"]` grows to `["-h", "-p"]`), so the
second call emits `--param` without the `-p` short flag. -/
theorem repeat_build_flags_C4 :
    c4FirstCall.1.actions.map (fun a => a.flags) = [["--param", "-p"]] ∧
    c4FirstCall.2 = ["-h", "-p"] ∧
    c4SecondCallFresh.1.actions.map (fun a => a.flags) = [["--param", "-p"]] ∧
    c4SecondCallShared.1.actions.map (fun a => a.flags) = [["--param"]] :=
  ⟨rfl, rfl, rfl, rfl⟩

/-- C5 counterexample: building a parser for `Config {param: TestEnum}`
(values one/two/three) produces a descriptor with NO `choices` restriction
and with the enum class itself attached as the `type` coercion function:
the enum dispatch branch requires `get_origin(annotation) is type`, which
is `None` for a plain enum class, so the branch never fires and the field
falls through to the default scalar case. -/
theorem enum_descriptor_no_choices_C5 :
    (build_parser_impl 8 {} enumConfig).1.actions.map (fun a => (a.choices, a.typeF)) =
      [(none, some (.toEnum "TestEnum" ["one", "two", "three"]))] ∧
    ¬ ((build_parser_impl 8 {} enumConfig).1.actions.map (fun a => a.choices) =
        [some ["one", "two", "three"]]) :=
  ⟨rfl, by decide⟩

/-- C5 amended: for every field whose declared type is an enumeration, the
shape dispatcher leaves `choices` unset and keeps the enumeration class as
the explicit type-coercion function (invalid tokens are rejected by that
coercion raising, not by a choices check): the enum branch's
`origin is type` guard never holds for an enum class annotation. -/
theorem enum_shape_keeps_type_C5 (n : String) (vals : List String) (r : Bool) :
    _parse_shape_args (some (.pyenum n vals)) r =
      ⟨some (.toEnum n vals), none, none, none⟩ := rfl

/-- Reference definition following the spec's words for grouping: the name
of the earliest class, scanning the inheritance chain in
ancestor-to-descendant order, whose `model_fields` contain the field name. -/
def firstIntroducer : List (String × List FieldEntry) → String → Option String
  | [], _ => none
  | c :: rest, n =>
    if c.2.any (fun fe => fe.1 == n) then some c.1 else firstIntroducer rest n

/-- Helper: association lookup across one appended pair. -/
theorem lookup_append_pair (n k v : String) (r : List (String × String)) :
    List.lookup n (r ++ [(k, v)]) =
      (match List.lookup n r with
       | some w => some w
       | none => if n == k then some v else none) := by
  induction r with
  | nil => cases h : n == k <;> simp [List.lookup, h]
  | cons hd tl ih =>
    obtain ⟨k', v'⟩ := hd
    cases h : n == k' <;> simp [List.lookup, h, ih]

/-- Helper: the mapping `addClassFields` produces, seen through `lookup`:
existing attributions win, and a new name is attributed to the class iff
one of its fields carries that name. -/
theorem lookup_addClassFields (cn n : String) (fs : List FieldEntry)
    (r : List (String × String)) :
    List.lookup n (addClassFields cn fs r) =
      (match List.lookup n r with
       | some w => some w
       | none => if fs.any (fun fe => fe.1 == n) then some cn else none) := by
  induction fs generalizing r with
  | nil => cases h : List.lookup n r <;> simp [addClassFields, h]
  | cons fe rest ih =>
    simp only [addClassFields]
    cases hs : List.lookup fe.1 r with
    | some w' =>
      simp only [hs, Option.isSome_some, if_true]
      rw [ih]
      cases h : List.lookup n r with
      | some w => simp
      | none =>
        cases hb : fe.1 == n with
        | true =>
          exfalso
          have hfe : fe.1 = n := by simpa using hb
          rw [hfe, h] at hs
          exact Option.noConfusion hs
        | false => simp only [List.any_cons, hb, Bool.false_or]
    | none =>
      simp only [hs, Option.isSome_none, Bool.false_eq_true, if_false]
      rw [ih]
      cases h : List.lookup n r with
      | some w =>
        rw [lookup_append_pair, h]
      | none =>
        rw [lookup_append_pair, h]
        cases hb : n == fe.1 with
        | true =>
          have hbe : (fe.1 == n) = true := by
            have hq : n = fe.1 := by simpa using hb
            simp [hq]
          simp only [hb, if_true, List.any_cons, hbe, Bool.true_or]
        | false =>
          have hbe : (fe.1 == n) = false := by
            have hq : ¬ n = fe.1 := by simpa using hb
            exact beq_eq_false_iff_ne.mpr (Ne.symm hq)
          simp only [hb, Bool.false_eq_true, if_false, List.any_cons, hbe, Bool.false_or]

/-- Helper: `groupbyGo` attributes any name not already attributed to the
first class of the chain (processed head first) that introduces it. -/
theorem lookup_groupbyGo (chain : List (String × List FieldEntry))
    (r : List (String × String)) (n : String) :
    List.lookup n (groupbyGo chain r) =
      (match List.lookup n r with
       | some w => some w
       | none => firstIntroducer chain n) := by
  induction chain generalizing r with
  | nil => cases h : List.lookup n r <;> simp [groupbyGo, firstIntroducer, h]
  | cons c rest ih =>
    simp only [groupbyGo]
    rw [ih, lookup_addClassFields]
    cases h : List.lookup n r with
    | some w => simp
    | none =>
      simp only [firstIntroducer]
      cases ha : c.2.any (fun fe => fe.1 == n) <;> simp [ha]

/-- The inheritance chain of the claim's example: `Config2(Config)` where
`Config` declares `{a, b}` and `Config2` adds `{c, d}` (a subclass's
`model_fields` include the inherited fields first). -/
def config2Mro : List (String × List FieldEntry) :=
  [("Config2", [("a", some .pystr, {}), ("b", some .pystr, {}),
                ("c", some .pystr, {}), ("d", some .pystr, {})]),
   ("Config", [("a", some .pystr, {}), ("b", some .pystr, {})])]

/-- C6: `get_groupby_field_names` attributes every field name to the
earliest ancestor (walking the truncated `__mro__` from ancestor to
descendant) whose `model_fields` first introduce that name - stated
against the reference `firstIntroducer` for every inheritance chain - and
on the concrete `Config2(Config)` example it yields
`{a: Config, b: Config, c: Config2, d: Config2}`; the function is pure, so
the result cannot depend on call order. -/
theorem groupby_earliest_ancestor_C6 :
    (∀ (mro : List (String × List FieldEntry)) (n : String),
        List.lookup n (get_groupby_field_names mro) = firstIntroducer mro.reverse n) ∧
    get_groupby_field_names config2Mro =
      [("a", "Config"), ("b", "Config"), ("c", "Config2"), ("d", "Config2")] := by
  refine ⟨fun mro n => ?_, rfl⟩
  simp only [get_groupby_field_names]
  rw [lookup_groupbyGo]
  rfl

/-- C9 counterexample: parsing `["--param", "novalue"]` with the parser
built for `Config {param: Dict[str, int]}` makes `StoreKeywordParam`
raise `ValueError` inside the action's `__call__`; CPython's argparse
converts only `ArgumentError` into a usage-message exit, so the
`ValueError` propagates out of `parse_args` as an unhandled exception -
not as the invalid-argument usage exit the claim describes. -/
theorem mapping_token_without_eq_uncaught_C9 :
    parse_args builtDictConfig ["--param", "novalue"] =
      .exc "Wrong format of keyword parameters. Expected: key=value" ∧
    ParseResult.isUsage (parse_args builtDictConfig ["--param", "novalue"]) = false ∧
    ParseResult.isExc (parse_args builtDictConfig ["--param", "novalue"]) = true :=
  ⟨rfl, rfl, rfl⟩

/-- C9 amended: a token for a mapping-shaped option that contains at least
one `=` is split on the first `=` (key before it, the re-joined remainder
after it) and accumulated into the option's dict; a token without `=`
raises a `ValueError` that propagates out of parsing as an unhandled
exception (argparse converts only `ArgumentError` into a usage exit), and
on the happy path the concrete `test_dict`-style parse succeeds. -/
theorem mapping_token_split_accumulate_C9 :
    (∀ (d : List (String × Value)) (s : String),
        (splitChar '=' s).length < 2 →
        storeKeywordFold d [.vstr s] =
          .error "Wrong format of keyword parameters. Expected: key=value") ∧
    (∀ (d : List (String × Value)) (s : String),
        2 ≤ (splitChar '=' s).length →
        storeKeywordFold d [.vstr s] =
          .ok (dictSet d ((splitChar '=' s).headD "")
            (.vstr (String.intercalate "=" (splitChar '=' s).tail)))) ∧
    parse_args builtDictConfig ["--param", "key1=10", "key2=2=3"] =
      .ok [("param", .vdict [("key1", .vstr "10"), ("key2", .vstr "2=3")])] := by
  refine ⟨fun d s h => ?_, fun d s h => ?_, rfl⟩
  · simp only [storeKeywordFold]
    rw [if_pos h]
  · simp only [storeKeywordFold]
    rw [if_neg (Nat.not_lt.mpr h)]

/-- Witness for the C9 amended theorem at concrete tokens. -/
theorem mapping_token_split_accumulate_C9_witness :
    storeKeywordFold [] [.vstr "novalue"] =
      .error "Wrong format of keyword parameters. Expected: key=value" ∧
    storeKeywordFold [] [.vstr "a=b=c"] =
      .ok (dictSet [] ((splitChar '=' "a=b=c").headD "")
        (.vstr (String.intercalate "=" (splitChar '=' "a=b=c").tail))) :=
  ⟨mapping_token_split_accumulate_C9.1 [] "novalue" (by decide),
   mapping_token_split_accumulate_C9.2.1 [] "a=b=c" (by decide)⟩

/-- Helper: the shape kwargs of a plain `bool` annotation do not depend on
required-ness: the type stays `bool` and no other key is set. -/
theorem shape_pybool (r : Bool) :
    _parse_shape_args (some .pybool) r = ⟨some .toBool, none, none, none⟩ := rfl

/-- C10: inside the nested-model recursion (frame action
`NestedFieldStoreAction`), a boolean field is NOT routed to the
enable/disable flag-pair branch (that branch requires the frame action to
be `None`): it synthesizes exactly one value-consuming option (`nargs`
absent, i.e. one token) whose type coercer is `bool`, registered with the
nested store action and no mutually exclusive group; since Python
`bool(token)` is truthiness, every non-empty token - including `"false"` -
coerces to `True`, as the concrete parse of `--child.flag false` shows. -/
theorem nested_boolean_single_value_option_C10 :
    (∀ (exc : List String) (atr pn : Bool) (sep : String)
        (cfg : List (String × ExtraVal)) (gr : List (String × String))
        (st : ParserSt) (exist cache : List String) (np : Option String)
        (nm : String) (dv : Option Value) (al de ti : Option String)
        (ex : Option (List (String × ExtraVal))),
      let P : FrameParams := ⟨exc, atr, pn, sep, cfg, gr, some .nestedStore⟩
      let meta : FieldMeta := ⟨dv, al, de, ti, ex⟩
      let r := synthField P st exist cache np nm (some .pybool) meta
      r.1.actions.length = st.actions.length + 1 ∧
      r.1.actions.map (fun a => a.kind) =
        st.actions.map (fun a => a.kind) ++ [.nestedStore] ∧
      r.1.actions.map (fun a => a.typeF) =
        st.actions.map (fun a => a.typeF) ++ [some .toBool] ∧
      r.1.actions.map (fun a => a.nargs) =
        st.actions.map (fun a => a.nargs) ++ [none] ∧
      r.1.mutexRequired = st.mutexRequired) ∧
    (∀ s : String, s ≠ "" → coerceStr .toBool s = .ok (.vbool true)) ∧
    coerceStr .toBool "false" = .ok (.vbool true) ∧
    parse_args builtNestedBool ["--child.flag", "false"] =
      .ok [("child.flag", .vnone), ("child", .vdict [("flag", .vbool true)])] := by
  refine ⟨fun exc atr pn sep cfg gr st exist cache np nm dv al de ti ex => ?_,
    fun s h => ?_, rfl, rfl⟩
  · refine ⟨?_, ?_, ?_, ?_, ?_⟩ <;>
      simp [synthField, shape_pybool, List.length_append, List.map_append]
  · have hb : (s != "") = true := by simpa using h
    simp [coerceStr, hb]

/-- Witness for the C10 theorem: the general parts applied at a concrete
nested boolean field and at the token `"false"`. -/
theorem nested_boolean_single_value_option_C10_witness :
    ((synthField ⟨[], true, true, "-", [], [], some .nestedStore⟩ {} ["-h"] []
        (some "child.") "flag" (some .pybool) {}).1.actions.map (fun a => a.kind) =
      [ActionKind.nestedStore]) ∧
    coerceStr .toBool "false" = .ok (.vbool true) := by
  constructor
  · have h := (nested_boolean_single_value_option_C10.1 [] true true "-" [] [] {} ["-h"]
      [] (some "child.") "flag" none none none none none).2.1
    simpa using h
  · exact nested_boolean_single_value_option_C10.2.2.1

/-- Whether the per-field synthesis takes the special boolean branch: frame
action `None` and a plain `bool` annotation. -/
def takesBoolBranch : Option ActionKind → Option PyType → Bool
  | none, some .pybool => true
  | _, _ => false

/-- C7 counterexample: the field `param` of `Config {param: str}` carries
the alias `zebra` and no custom `cli` override; with auto-truncation on and
`-p` unclaimed, the claim says the short flag `-p` (first character of the
field name) is added - but the code derives the short flag from the first
derived long flag, which is the alias flag, so it adds `-z` and never
`-p`. -/
theorem alias_short_flag_not_field_name_C7 :
    (build_parser_impl 8 {} aliasConfig).1.actions.map (fun a => a.flags) =
      [["--zebra", "--param", "-z"]] ∧
    ((build_parser_impl 8 {} aliasConfig).1.actions.all
      (fun a => !a.flags.contains "-p")) = true :=
  ⟨rfl, rfl⟩

/-- C7 amended: when auto-truncation is enabled, every field synthesized
outside the special boolean branch gets the one-letter short flag
`-` + first character of its FIRST derived long flag (the alias-derived
flag when an alias exists, the dotted-prefixed name otherwise) appended as
an alternate flag iff that exact token is not already claimed in the
running exclusion list, which then grows by the claimed token;
first-come-first-served is claim-order: `alpha` beats `aardvark` for `-a`,
a list seeded with `-a` blocks both, and the default seed `["-h"]` blocks
`hello`. -/
theorem auto_truncate_short_flags_C7 :
    (∀ (exc : List String) (pn : Bool) (sep : String)
        (cfg : List (String × ExtraVal)) (gr : List (String × String))
        (act : Option ActionKind) (st : ParserSt) (exist cache : List String)
        (np : Option String) (nm : String) (ann : Option PyType) (meta : FieldMeta),
      takesBoolBranch act ann = false →
      (let P : FrameParams := ⟨exc, true, pn, sep, cfg, gr, act⟩
       let base := get_cli_names nm meta cfg sep
         ("--" ++ (match np with | some p => p | none => ""))
       let t := truncToken (base.headD "")
       let r := synthField P st exist cache np nm ann meta
       r.1.actions.map (fun a => a.flags) =
         st.actions.map (fun a => a.flags) ++
           [if !(exist.contains t) then base ++ [t] else base] ∧
       r.2.1 = (if !(exist.contains t) then exist ++ [t] else exist))) ∧
    (build_parser_impl 8 {} alphaAardvarkConfig).1.actions.map (fun a => a.flags) =
      [["--alpha", "-a"], ["--aardvark"]] ∧
    (build_parser_impl 8 {} alphaAardvarkConfig [] true true ["-a"]).1.actions.map
        (fun a => a.flags) =
      [["--alpha"], ["--aardvark"]] ∧
    (build_parser_impl 8 {} helloConfig).1.actions.map (fun a => a.flags) =
      [["--hello"]] := by
  refine ⟨fun exc pn sep cfg gr act st exist cache np nm ann meta hB => ?_,
    rfl, rfl, rfl⟩
  cases act <;> cases ann <;>
    first
      | exact Bool.noConfusion hB
      | ((refine ⟨?_, ?_⟩ <;> simp [synthField, _parse_shape_args, get_origin, annCoerce, List.map_append]);
         done)
      | (rename_i a
         cases a <;>
           first
             | exact Bool.noConfusion hB
             | ((refine ⟨?_, ?_⟩ <;>
                  simp [synthField, _parse_shape_args, get_origin, annCoerce, List.map_append]);
                done))

/-- Witness for the C7 amended theorem: the general clause applied to a
plain string field `alpha` with the default seed. -/
theorem auto_truncate_short_flags_C7_witness :
    (synthField ⟨[], true, true, "-", [], [], none⟩ {} ["-h"] [] none "alpha"
        (some .pystr) {}).1.actions.map (fun a => a.flags) = [["--alpha", "-a"]] ∧
    (synthField ⟨[], true, true, "-", [], [], none⟩ {} ["-h"] [] none "alpha"
        (some .pystr) {}).2.1 = ["-h", "-a"] := by
  have h := auto_truncate_short_flags_C7.1 [] true "-" [] [] none {} ["-h"] [] none
    "alpha" (some .pystr) {} rfl
  exact ⟨by simpa using h.1, by simpa using h.2⟩

/-- C3: a top-level boolean field (frame action `None`) with no default
synthesizes exactly the two descriptors of `_add_both_options` and
registers one new mutually exclusive group with `required=True`; those two
descriptors are the zero-arity enable-prefixed `store_true` and
disable-prefixed `store_false` actions, both with `dest` equal to the field
name and both members of the new group. A boolean field with a default
synthesizes exactly the one descriptor of `_add_either_option`, which is
the zero-arity disable-prefixed `store_false` action when the default is
truthy and the enable-prefixed `store_true` action when it is falsy, in
both cases keeping the field's default as the descriptor's default. Every
field synthesized outside the boolean branch contributes exactly one
descriptor. -/
theorem boolean_field_descriptors_C3 :
    (∀ (exc : List String) (atr pn : Bool) (sep : String)
        (cfg : List (String × ExtraVal)) (gr : List (String × String))
        (st : ParserSt) (exist cache : List String) (np : Option String)
        (nm : String) (al de ti : Option String)
        (ex : Option (List (String × ExtraVal))),
      let P : FrameParams := ⟨exc, atr, pn, sep, cfg, gr, none⟩
      let meta : FieldMeta := ⟨none, al, de, ti, ex⟩
      let gu := groupUpdate P st.groupsCreated cache nm
      synthField P st exist cache np nm (some .pybool) meta =
        ({ actions := st.actions ++
             _add_both_options P gu.2.2 st.mutexRequired.length nm meta (helpOf meta),
           groupsCreated := gu.1,
           mutexRequired := st.mutexRequired ++ [true] }, exist, gu.2.1)) ∧
    (∀ (exc : List String) (atr pn : Bool) (sep : String)
        (cfg : List (String × ExtraVal)) (gr : List (String × String))
        (st : ParserSt) (exist cache : List String) (np : Option String)
        (nm : String) (dv : Value) (al de ti : Option String)
        (ex : Option (List (String × ExtraVal))),
      let P : FrameParams := ⟨exc, atr, pn, sep, cfg, gr, none⟩
      let meta : FieldMeta := ⟨some dv, al, de, ti, ex⟩
      let gu := groupUpdate P st.groupsCreated cache nm
      synthField P st exist cache np nm (some .pybool) meta =
        ({ actions := st.actions ++
             [_add_either_option P gu.2.2 nm meta (helpOf meta) dv],
           groupsCreated := gu.1,
           mutexRequired := st.mutexRequired }, exist, gu.2.1)) ∧
    (∀ (P : FrameParams) (glabel : Option String) (mid : Nat) (nm : String)
        (meta : FieldMeta) (helpT : Option String),
      (_add_both_options P glabel mid nm meta helpT).map (fun a => a.kind) =
        [.storeTrue, .storeFalse] ∧
      (_add_both_options P glabel mid nm meta helpT).map (fun a => a.dest) =
        [nm, nm] ∧
      (_add_both_options P glabel mid nm meta helpT).map (fun a => a.nargs) =
        [some .zero, some .zero] ∧
      (_add_both_options P glabel mid nm meta helpT).map (fun a => a.mutexId) =
        [some mid, some mid] ∧
      (_add_both_options P glabel mid nm meta helpT).map (fun a => a.flags) =
        [get_cli_names nm meta P.config P.sep
           (_get_extra_str meta P.config "cli_enable_prefix" "--enable-"),
         get_cli_names nm meta P.config P.sep
           (_get_extra_str meta P.config "cli_disable_prefix" "--disable-")]) ∧
    (∀ (P : FrameParams) (glabel : Option String) (nm : String) (meta : FieldMeta)
        (helpT : Option String) (dv : Value), truthy dv = true →
      _add_either_option P glabel nm meta helpT dv =
        { flags := get_cli_names nm meta P.config P.sep
            (_get_extra_str meta P.config "cli_disable_prefix" ("--disable" ++ P.sep)),
          dest := nm, typeF := none, nargs := some .zero, defaultV := dv,
          helpText := helpT, kind := .storeFalse, group := glabel }) ∧
    (∀ (P : FrameParams) (glabel : Option String) (nm : String) (meta : FieldMeta)
        (helpT : Option String) (dv : Value), truthy dv = false →
      _add_either_option P glabel nm meta helpT dv =
        { flags := get_cli_names nm meta P.config P.sep
            (_get_extra_str meta P.config "cli_enable_prefix" ("--enable" ++ P.sep)),
          dest := nm, typeF := none, nargs := some .zero, defaultV := dv,
          helpText := helpT, kind := .storeTrue, group := glabel }) ∧
    (∀ (exc : List String) (atr pn : Bool) (sep : String)
        (cfg : List (String × ExtraVal)) (gr : List (String × String))
        (act : Option ActionKind) (st : ParserSt) (exist cache : List String)
        (np : Option String) (nm : String) (ann : Option PyType) (meta : FieldMeta),
      takesBoolBranch act ann = false →
      (synthField ⟨exc, atr, pn, sep, cfg, gr, act⟩ st exist cache np nm
          ann meta).1.actions.length = st.actions.length + 1) := by
  refine ⟨fun exc atr pn sep cfg gr st exist cache np nm al de ti ex => rfl,
    fun exc atr pn sep cfg gr st exist cache np nm dv al de ti ex => rfl,
    fun P glabel mid nm meta helpT => ⟨rfl, rfl, rfl, rfl, rfl⟩,
    fun P glabel nm meta helpT dv h => by simp [_add_either_option, h],
    fun P glabel nm meta helpT dv h => by simp [_add_either_option, h],
    fun exc atr pn sep cfg gr act st exist cache np nm ann meta hB => ?_⟩
  cases act <;> cases ann <;>
    first
      | exact Bool.noConfusion hB
      | (simp [synthField, _parse_shape_args, get_origin, List.length_append]; done)
      | (rename_i a
         cases a <;>
           first
             | exact Bool.noConfusion hB
             | (simp [synthField, _parse_shape_args, get_origin, List.length_append];
                done))

/-- Witness for the C3 theorem: the hypothesis-bearing clauses applied at a
concrete truthy and falsy default and at a concrete non-boolean field. -/
theorem boolean_field_descriptors_C3_witness :
    _add_either_option ⟨[], true, true, "-", [], [], none⟩ none "param" {} none
        (.vbool true) =
      { flags := ["--disable-param"], dest := "param", typeF := none,
        nargs := some .zero, defaultV := .vbool true, helpText := none,
        kind := .storeFalse, group := none } ∧
    _add_either_option ⟨[], true, true, "-", [], [], none⟩ none "param" {} none
        (.vbool false) =
      { flags := ["--enable-param"], dest := "param", typeF := none,
        nargs := some .zero, defaultV := .vbool false, helpText := none,
        kind := .storeTrue, group := none } ∧
    (synthField ⟨[], true, true, "-", [], [], none⟩ {} ["-h"] [] none "param"
        (some .pystr) {}).1.actions.length = 1 := by
  refine ⟨?_, ?_, ?_⟩
  · have h := boolean_field_descriptors_C3.2.2.2.1
      ⟨[], true, true, "-", [], [], none⟩ none "param" {} none (.vbool true) rfl
    simpa using h
  · have h := boolean_field_descriptors_C3.2.2.2.2.1
      ⟨[], true, true, "-", [], [], none⟩ none "param" {} none (.vbool false) rfl
    simpa using h
  · have h := boolean_field_descriptors_C3.2.2.2.2.2
      [] true true "-" [] [] none {} ["-h"] [] none "param" (some .pystr) {} rfl
    simpa using h

end PydanticArgify
